import Mathlib

/-!
Verification of the small shop management system (shop.py): inventory CRUD
over a CSV-backed product table and an append-only sales ledger.

The CSV layer (csv.reader / csv.writer) round-trips rows of text fields
faithfully.  We model a file as an optional list of rows (none = the file is
absent), a row being a list of cells.  A cell abstracts a text field by its
numeric parse class: Cell.int n stands for text that Python int() parses as n
(and float() as n as well), Cell.rat q stands for text that float() parses as
q but int() rejects (such as "9.99" or "4.0" -- Python str(float) always has a
decimal point), and Cell.str s stands for text s that neither parser accepts,
or text whose exact characters matter (ids, names).  Prices are modelled as
rationals, quantities as integers (Python ints are unbounded).
-/

namespace Shop

/-- A CSV field, abstracted by its numeric parse class. -/
inductive Cell where
  | str : String → Cell
  | rat : ℚ → Cell
  | int : ℤ → Cell
deriving DecidableEq

/-- The raw text of a field, as Python sees row[i] (used for ids and names). -/
def Cell.asString : Cell → String
  | .str s => s
  | .rat q => toString q
  | .int n => toString n

/-- Python float(text) on a field: succeeds on numeric text, fails otherwise. -/
def parseFloat : Cell → Option ℚ
  | .str _ => none
  | .rat q => some q
  | .int n => some (n : ℚ)

/-- Python int(text) on a field: succeeds only on integer-literal text. -/
def parseInt : Cell → Option ℤ
  | .str _ => none
  | .rat _ => none
  | .int n => some n

/-- A row of a CSV file. -/
abbrev Row := List Cell

/-- File contents as csv.reader yields them: a list of rows. -/
abbrev FileData := List Row

/-- Product record (class Product in shop.py). -/
structure Product where
  product_id : String
  name : String
  price : ℚ
  quantity : ℤ
deriving DecidableEq

/-- Python dict assignment products[p.product_id] = p on an insertion-ordered
mapping modelled as a list: replace in place if the key is present, else
append. -/
def dictInsert (products : List Product) (p : Product) : List Product :=
  if products.any (fun q => q.product_id == p.product_id) then
    products.map (fun q => if q.product_id == p.product_id then p else q)
  else
    products ++ [p]

/-- The row-reading loop of Inventory.load_inventory: rows with fewer than
four fields are skipped; a row with exactly four fields is parsed and
inserted; a parse failure (float() or int() raising) or a row with more than
four fields (tuple unpacking raising) aborts the loop, returning the products
accumulated so far (the surrounding try/except catches the exception). -/
def loadRows : FileData → List Product → List Product
  | [], products => products
  | row :: rest, products =>
    if row.length < 4 then loadRows rest products
    else
      match row with
      | [f0, f1, f2, f3] =>
        match parseFloat f2, parseInt f3 with
        | some price, some qty =>
          loadRows rest (dictInsert products ⟨f0.asString, f1.asString, price, qty⟩)
        | _, _ => products
      | _ => products

/-- Inventory.load_inventory: absent file gives the empty mapping; otherwise
the header row is skipped (next(reader, None)) and the remaining rows are
folded by loadRows. -/
def load_inventory : Option FileData → List Product
  | none => []
  | some rows => loadRows (rows.drop 1) []

/-- Header row written by Inventory.save_inventory. -/
def invHeader : Row :=
  [.str "product_id", .str "product_name", .str "price", .str "quantity"]

/-- Inventory.save_inventory: full rewrite, header first, one row per product.
Python writes price as str(float) (always rat-class text) and quantity as
str(int) (int-class text). -/
def save_inventory (products : List Product) : FileData :=
  invHeader ::
    products.map (fun p =>
      [Cell.str p.product_id, Cell.str p.name, Cell.rat p.price, Cell.int p.quantity])

/-- In-memory products together with the backing file (class Inventory). -/
structure InventoryState where
  products : List Product
  file : Option FileData
deriving DecidableEq

/-- Inventory.add_product: reject if the id is already a key (nothing is
mutated); otherwise insert and immediately persist the full table. -/
def add_product (st : InventoryState) (product_id name : String)
    (price : ℚ) (quantity : ℤ) : InventoryState :=
  if st.products.any (fun p => p.product_id == product_id) then st
  else
    let products := dictInsert st.products ⟨product_id, name, price, quantity⟩
    ⟨products, some (save_inventory products)⟩

/-- A line item of a sale: Sale.add_item appends
[product_id, name, quantity, price * quantity]. -/
structure LineItem where
  product_id : String
  name : String
  quantity : ℤ
  total : ℚ
deriving DecidableEq

/-- A sale in progress (class Sale). -/
structure Sale where
  sale_id : String
  items : List LineItem
deriving DecidableEq

/-- Sale.add_item: computes price * quantity, appends the line item and
returns the total. -/
def Sale.add_item (s : Sale) (p : Product) (quantity : ℤ) : Sale × ℚ :=
  let total := p.price * (quantity : ℚ)
  ({ s with items := s.items ++ [⟨p.product_id, p.name, quantity, total⟩] }, total)

/-- Header row of the sales ledger file. -/
def salesHeader : Row :=
  [.str "Sale ID", .str "Product ID", .str "Product Name",
   .str "Quantity Sold", .str "Total Price"]

/-- SalesManager.ensure_sales_file: create the file with the header row if it
is missing, otherwise leave it as it is. -/
def ensure_sales_file : Option FileData → FileData
  | none => [salesHeader]
  | some rows => rows

/-- SalesManager.get_existing_sales: skip the header row, then collect row[0]
of every non-empty row. -/
def get_existing_sales (rows : FileData) : List String :=
  (rows.drop 1).filterMap (fun row =>
    match row with
    | [] => none
    | f :: _ => some f.asString)

/-- The ledger row written for one line item: writerow([sale.sale_id] + item),
the item being [product_id, name, quantity, total_price]. -/
def saleRow (sid : String) (it : LineItem) : Row :=
  [Cell.str sid, Cell.str it.product_id, Cell.str it.name,
   Cell.int it.quantity, Cell.rat it.total]

/-- SalesManager.save_sale: reject (returning false, nothing written) when the
sale id is already present; otherwise append one row per line item, each row
being the sale id prepended to the item, and log success (true). -/
def save_sale (rows : FileData) (sale : Sale) : FileData × Bool :=
  if sale.sale_id ∈ get_existing_sales rows then (rows, false)
  else (rows ++ sale.items.map (saleRow sale.sale_id), true)

/-- Python str.lower(), modelled characterwise (only ASCII matters here: the
loop compares against the sentinel "done"). -/
def pyLower (s : String) : String := ⟨s.data.map Char.toLower⟩

/-- One iteration of the item-collection loop of ShopSystem.process_sale:
the product id entered, and the quantity entered (none when int() rejects the
quantity text). -/
inductive SaleEvent where
  | sell : String → Option ℤ → SaleEvent
deriving DecidableEq

/-- The item-collection loop of ShopSystem.process_sale.  The loop stops on
the sentinel "done" (case-insensitive) or at the end of the input; an unknown
product id, an unparsable quantity, or a quantity exceeding stock leaves the
state unchanged and continues; an accepted item is appended to the sale and
the stock of the product is decremented in place. -/
def collectItems (products : List Product) (sale : Sale) :
    List SaleEvent → List Product × Sale
  | [] => (products, sale)
  | .sell pid q :: rest =>
    if pyLower pid == "done" then (products, sale)
    else
      match products.find? (fun p => p.product_id == pid) with
      | none => collectItems products sale rest
      | some p =>
        match q with
        | none => collectItems products sale rest
        | some qty =>
          if qty > p.quantity then collectItems products sale rest
          else
            collectItems
              (products.map (fun r =>
                if r.product_id == pid then { r with quantity := r.quantity - qty } else r))
              (sale.add_item p qty).1 rest

/-- The whole shop state: inventory (memory and file) and the ledger file. -/
structure ShopState where
  inventory : InventoryState
  ledger : FileData
deriving DecidableEq

/-- ShopSystem.process_sale: collect items, persist the (possibly
decremented) inventory, then attempt to save the sale to the ledger. -/
def process_sale (st : ShopState) (sale_id : String) (events : List SaleEvent) :
    ShopState :=
  let res := collectItems st.inventory.products ⟨sale_id, []⟩ events
  let file := save_inventory res.1
  let ledger := (save_sale st.ledger res.2).1
  ⟨⟨res.1, some file⟩, ledger⟩

/-- The invariant of claim C2: every quantity on hand is non-negative. -/
def quantitiesNonneg (products : List Product) : Prop :=
  ∀ p ∈ products, 0 ≤ p.quantity

instance (products : List Product) : Decidable (quantitiesNonneg products) :=
  List.decidableBAll _ products

/-- A row that load_inventory skips silently: fewer than four fields. -/
def rowSkipped (row : Row) : Bool := row.length < 4

/-- A four-field row whose numeric fields both parse: load_inventory inserts
the product and moves on. -/
def rowOk (row : Row) : Bool :=
  match row with
  | [_, _, f2, f3] => (parseFloat f2).isSome && (parseInt f3).isSome
  | _ => false

/-- A four-field row with a malformed numeric field: float() or int() raises
and load_inventory aborts, keeping what was parsed so far. -/
def rowAborts (row : Row) : Bool :=
  match row with
  | [_, _, f2, f3] => !((parseFloat f2).isSome && (parseInt f3).isSome)
  | _ => false

end Shop

namespace Shop

/-! Helper lemmas: branch equations for the item-collection loop, the row
loop of load_inventory, and the dict model. -/

theorem dictInsert_of_not_mem {acc : List Product} {p : Product}
    (h : p.product_id ∉ acc.map Product.product_id) :
    dictInsert acc p = acc ++ [p] := by
  unfold dictInsert
  rw [if_neg]
  intro hc
  rw [List.any_eq_true] at hc
  obtain ⟨q, hq, hbeq⟩ := hc
  exact h (List.mem_map.mpr ⟨q, hq, eq_of_beq hbeq⟩)

theorem collectItems_nil (products : List Product) (sale : Sale) :
    collectItems products sale [] = (products, sale) := rfl

theorem collectItems_done {pid : String} (products : List Product) (sale : Sale)
    (q : Option ℤ) (rest : List SaleEvent) (h : pyLower pid = "done") :
    collectItems products sale (.sell pid q :: rest) = (products, sale) := by
  simp only [collectItems]
  rw [if_pos (by simp [h])]

theorem collectItems_not_found {pid : String} {products : List Product} (sale : Sale)
    (q : Option ℤ) (rest : List SaleEvent) (hd : ¬ pyLower pid = "done")
    (h : products.find? (fun p => p.product_id == pid) = none) :
    collectItems products sale (.sell pid q :: rest) = collectItems products sale rest := by
  simp only [collectItems, h]
  rw [if_neg (fun hc => hd (eq_of_beq hc))]

theorem collectItems_bad_qty {pid : String} {products : List Product} {p : Product}
    (sale : Sale) (rest : List SaleEvent) (hd : ¬ pyLower pid = "done")
    (h : products.find? (fun r => r.product_id == pid) = some p) :
    collectItems products sale (.sell pid none :: rest) = collectItems products sale rest := by
  simp only [collectItems, h]
  rw [if_neg (fun hc => hd (eq_of_beq hc))]

theorem collectItems_over {pid : String} {products : List Product} {p : Product} {qty : ℤ}
    (sale : Sale) (rest : List SaleEvent) (hd : ¬ pyLower pid = "done")
    (h : products.find? (fun r => r.product_id == pid) = some p)
    (hover : p.quantity < qty) :
    collectItems products sale (.sell pid (some qty) :: rest) =
      collectItems products sale rest := by
  simp only [collectItems, h]
  rw [if_neg (fun hc => hd (eq_of_beq hc)), if_pos hover]

theorem collectItems_accept {pid : String} {products : List Product} {p : Product} {qty : ℤ}
    (sale : Sale) (rest : List SaleEvent) (hd : ¬ pyLower pid = "done")
    (h : products.find? (fun r => r.product_id == pid) = some p)
    (hle : qty ≤ p.quantity) :
    collectItems products sale (.sell pid (some qty) :: rest) =
      collectItems
        (products.map (fun r =>
          if r.product_id == pid then { r with quantity := r.quantity - qty } else r))
        { sale with items := sale.items ++ [⟨p.product_id, p.name, qty, p.price * (qty : ℚ)⟩] }
        rest := by
  simp only [collectItems, h, Sale.add_item]
  rw [if_neg (fun hc => hd (eq_of_beq hc)), if_neg (not_lt.mpr hle)]

theorem collectItems_sale_id (events : List SaleEvent) :
    ∀ (products : List Product) (sale : Sale),
      ((collectItems products sale events).2).sale_id = sale.sale_id := by
  induction events with
  | nil => intro products sale; rfl
  | cons ev rest ih =>
    intro products sale
    cases ev with
    | sell pid q =>
      by_cases hd : pyLower pid = "done"
      · rw [collectItems_done products sale q rest hd]
      · cases hfind : products.find? (fun r => r.product_id == pid) with
        | none => rw [collectItems_not_found sale q rest hd hfind]; exact ih products sale
        | some p =>
          cases q with
          | none => rw [collectItems_bad_qty sale rest hd hfind]; exact ih products sale
          | some qty =>
            by_cases hq : p.quantity < qty
            · rw [collectItems_over sale rest hd hfind hq]; exact ih products sale
            · rw [collectItems_accept sale rest hd hfind (not_lt.mp hq)]
              exact ih _ _

theorem loadRows_nil (acc : List Product) : loadRows [] acc = acc := rfl

theorem loadRows_short {row : Row} (rest : FileData) (acc : List Product)
    (h : row.length < 4) :
    loadRows (row :: rest) acc = loadRows rest acc := by
  simp only [loadRows]
  rw [if_pos h]

theorem loadRows_ok {f0 f1 f2 f3 : Cell} {price : ℚ} {qty : ℤ} (rest : FileData)
    (acc : List Product) (h2 : parseFloat f2 = some price) (h3 : parseInt f3 = some qty) :
    loadRows ([f0, f1, f2, f3] :: rest) acc =
      loadRows rest (dictInsert acc ⟨f0.asString, f1.asString, price, qty⟩) := by
  simp only [loadRows, h2, h3]
  rw [if_neg (by simp)]

theorem loadRows_fail {f0 f1 f2 f3 : Cell} (rest : FileData) (acc : List Product)
    (h : parseFloat f2 = none ∨ parseInt f3 = none) :
    loadRows ([f0, f1, f2, f3] :: rest) acc = acc := by
  simp only [loadRows]
  rw [if_neg (by simp)]
  cases hf : parseFloat f2 with
  | none => rfl
  | some price =>
    cases hi : parseInt f3 with
    | none => rfl
    | some qty =>
      rcases h with h | h
      · rw [hf] at h; exact absurd h (by simp)
      · rw [hi] at h; exact absurd h (by simp)

theorem find?_map_decrement (pid : String) (qty : ℤ) :
    ∀ (products : List Product) (p : Product),
      products.find? (fun r => r.product_id == pid) = some p →
      (products.map (fun r =>
          if r.product_id == pid then { r with quantity := r.quantity - qty } else r)).find?
          (fun r => r.product_id == pid)
        = some { p with quantity := p.quantity - qty } := by
  intro products
  induction products with
  | nil => intro p h; simp [List.find?] at h
  | cons r rest ih =>
    intro p h
    rw [List.find?_cons] at h
    cases hr : (r.product_id == pid) with
    | true =>
      simp only [hr, cond_true] at h
      injection h with h
      subst h
      have hr' : r.product_id = pid := eq_of_beq hr
      simp [List.find?_cons, hr']
    | false =>
      simp only [hr, cond_false] at h
      simp only [List.map_cons, List.find?_cons, hr, cond_false, Bool.false_eq_true,
        if_false]
      exact ih p h

theorem map_decrement_ids (products : List Product) (pid : String) (qty : ℤ) :
    (products.map (fun r =>
        if r.product_id == pid then { r with quantity := r.quantity - qty } else r)).map
        Product.product_id
      = products.map Product.product_id := by
  rw [List.map_map]
  apply List.map_congr_left
  intro r _
  by_cases hr : (r.product_id == pid) = true <;> simp [Function.comp, hr]

theorem collectItems_nonneg (events : List SaleEvent) :
    ∀ (products : List Product) (sale : Sale),
      (products.map Product.product_id).Nodup → quantitiesNonneg products →
      quantitiesNonneg (collectItems products sale events).1 := by
  induction events with
  | nil => intro products sale _ hnn; exact hnn
  | cons ev rest ih =>
    intro products sale hnodup hnn
    cases ev with
    | sell pid q =>
      by_cases hd : pyLower pid = "done"
      · rw [collectItems_done products sale q rest hd]; exact hnn
      · cases hfind : products.find? (fun r => r.product_id == pid) with
        | none =>
          rw [collectItems_not_found sale q rest hd hfind]
          exact ih products sale hnodup hnn
        | some p =>
          cases q with
          | none =>
            rw [collectItems_bad_qty sale rest hd hfind]
            exact ih products sale hnodup hnn
          | some qty =>
            by_cases hq : p.quantity < qty
            · rw [collectItems_over sale rest hd hfind hq]
              exact ih products sale hnodup hnn
            · rw [collectItems_accept sale rest hd hfind (not_lt.mp hq)]
              apply ih
              · rw [map_decrement_ids]; exact hnodup
              · intro r' hr'
                obtain ⟨r, hr, rfl⟩ := List.mem_map.mp hr'
                have hp_mem : p ∈ products := List.mem_of_find?_eq_some hfind
                by_cases hid : (r.product_id == pid) = true
                · rw [if_pos hid]
                  have hp_pred := List.find?_some hfind
                  have hrp : r = p :=
                    List.inj_on_of_nodup_map hnodup hr hp_mem
                      (by rw [eq_of_beq hid, eq_of_beq hp_pred])
                  subst hrp
                  have := hnn r hr
                  simp only []
                  omega
                · rw [if_neg hid]
                  exact hnn r hr

theorem loadRows_saved_row (p : Product) (rest : FileData) (acc : List Product) :
    loadRows
        ([Cell.str p.product_id, Cell.str p.name, Cell.rat p.price, Cell.int p.quantity] :: rest)
        acc
      = loadRows rest (dictInsert acc p) := by
  simp only [loadRows, parseFloat, parseInt, Cell.asString]
  rw [if_neg (by simp)]

theorem loadRows_save (ps : List Product) :
    ∀ acc : List Product,
      (ps.map Product.product_id).Nodup →
      (∀ q ∈ ps, q.product_id ∉ acc.map Product.product_id) →
      loadRows
          (ps.map (fun p =>
            [Cell.str p.product_id, Cell.str p.name, Cell.rat p.price, Cell.int p.quantity]))
          acc
        = acc ++ ps := by
  induction ps with
  | nil => intro acc _ _; simp [loadRows]
  | cons p ps ih =>
    intro acc hnodup hdisj
    rw [List.map_cons, loadRows_saved_row p _ acc]
    rw [dictInsert_of_not_mem (hdisj p (List.mem_cons_self p ps))]
    rw [ih (acc ++ [p]) (List.nodup_cons.mp hnodup).2]
    · rw [List.append_assoc]; rfl
    · intro q hq
      rw [List.map_append, List.mem_append]
      rintro (hacc | hsing)
      · exact hdisj q (List.mem_cons_of_mem p hq) hacc
      · have hqp : q.product_id = p.product_id := by simpa using hsing
        exact (List.nodup_cons.mp hnodup).1 (hqp ▸ List.mem_map_of_mem Product.product_id hq)

theorem rowAborts_shape : ∀ {row : Row}, rowAborts row = true →
    ∃ f0 f1 f2 f3, row = [f0, f1, f2, f3] ∧
      (parseFloat f2 = none ∨ parseInt f3 = none)
  | [f0, f1, f2, f3], h => ⟨f0, f1, f2, f3, rfl, by
      revert h
      simp only [rowAborts]
      rcases parseFloat f2 with _ | price
      · intro _; exact Or.inl rfl
      · rcases parseInt f3 with _ | qty
        · intro _; exact Or.inr rfl
        · intro h; simp at h⟩
  | [], h => by simp [rowAborts] at h
  | [_], h => by simp [rowAborts] at h
  | [_, _], h => by simp [rowAborts] at h
  | [_, _, _], h => by simp [rowAborts] at h
  | (_ :: _ :: _ :: _ :: _ :: _), h => by simp [rowAborts] at h

theorem rowOk_shape : ∀ {row : Row}, rowOk row = true →
    ∃ f0 f1 f2 f3 price qty, row = [f0, f1, f2, f3] ∧
      parseFloat f2 = some price ∧ parseInt f3 = some qty
  | [f0, f1, f2, f3], h => by
      revert h
      simp only [rowOk]
      rcases hf : parseFloat f2 with _ | price
      · intro h; simp at h
      · rcases hi : parseInt f3 with _ | qty
        · intro h; simp at h
        · intro _; exact ⟨f0, f1, f2, f3, price, qty, rfl, hf, hi⟩
  | [], h => by simp [rowOk] at h
  | [_], h => by simp [rowOk] at h
  | [_, _], h => by simp [rowOk] at h
  | [_, _, _], h => by simp [rowOk] at h
  | (_ :: _ :: _ :: _ :: _ :: _), h => by simp [rowOk] at h

theorem loadRows_until_abort (bad : Row) (rest : FileData) (habort : rowAborts bad = true) :
    ∀ (pre : FileData) (acc : List Product),
      (∀ r ∈ pre, rowSkipped r = true ∨ rowOk r = true) →
      loadRows (pre ++ bad :: rest) acc = loadRows pre acc := by
  have hbad : ∀ acc : List Product, loadRows (bad :: rest) acc = acc := by
    intro acc
    obtain ⟨f0, f1, f2, f3, rfl, hfail⟩ := rowAborts_shape habort
    exact loadRows_fail rest acc hfail
  intro pre
  induction pre with
  | nil => intro acc _; exact hbad acc
  | cons r pre ih =>
    intro acc hpre
    rcases hpre r (List.mem_cons_self r pre) with hskip | hok
    · rw [List.cons_append, loadRows_short _ acc (by simpa [rowSkipped] using hskip),
        loadRows_short _ acc (by simpa [rowSkipped] using hskip)]
      exact ih acc (fun s hs => hpre s (List.mem_cons_of_mem r hs))
    · obtain ⟨f0, f1, f2, f3, price, qty, rfl, hf, hi⟩ := rowOk_shape hok
      rw [List.cons_append, loadRows_ok _ acc hf hi, loadRows_ok _ acc hf hi]
      exact ih _ (fun s hs => hpre s (List.mem_cons_of_mem _ hs))

theorem dictInsert_nonneg {ps : List Product} {p : Product}
    (hnn : quantitiesNonneg ps) (hp : 0 ≤ p.quantity) :
    quantitiesNonneg (dictInsert ps p) := by
  unfold dictInsert
  split
  · intro r' hr'
    obtain ⟨r, hr, rfl⟩ := List.mem_map.mp hr'
    split
    · exact hp
    · exact hnn r hr
  · intro r' hr'
    rcases List.mem_append.mp hr' with hl | hsing
    · exact hnn r' hl
    · rw [List.mem_singleton.mp hsing]; exact hp

/-! The claims. -/

/-- Claim C1: when the final save of the sale is rejected because the sale id
is already in the ledger, process_sale still keeps the decremented products in
memory, persists them to the inventory file, and the ledger file is unchanged;
the stock changes made during item collection are not rolled back. -/
theorem process_sale_duplicate_no_rollback (st : ShopState) (sale_id : String)
    (events : List SaleEvent) (h : sale_id ∈ get_existing_sales st.ledger) :
    process_sale st sale_id events =
      ⟨⟨(collectItems st.inventory.products ⟨sale_id, []⟩ events).1,
        some (save_inventory (collectItems st.inventory.products ⟨sale_id, []⟩ events).1)⟩,
       st.ledger⟩ := by
  have hid := collectItems_sale_id events st.inventory.products ⟨sale_id, []⟩
  simp only [process_sale, save_sale]
  rw [hid, if_pos h]

/-- Witness for C1: product p1 with stock 10, one item of quantity 3 sold
under the already-recorded sale id S1. -/
theorem process_sale_duplicate_no_rollback_w :
    ("S1" ∈ get_existing_sales
        [salesHeader, [Cell.str "S1", Cell.str "p0", Cell.str "X", Cell.int 1, Cell.rat 5]]) ∧
    process_sale
        ⟨⟨[⟨"p1", "Widget", 5, 10⟩], none⟩,
         [salesHeader, [Cell.str "S1", Cell.str "p0", Cell.str "X", Cell.int 1, Cell.rat 5]]⟩
        "S1" [.sell "p1" (some 3)] =
      ⟨⟨(collectItems [⟨"p1", "Widget", 5, 10⟩] ⟨"S1", []⟩ [.sell "p1" (some 3)]).1,
        some (save_inventory
          (collectItems [⟨"p1", "Widget", 5, 10⟩] ⟨"S1", []⟩ [.sell "p1" (some 3)]).1)⟩,
       [salesHeader, [Cell.str "S1", Cell.str "p0", Cell.str "X", Cell.int 1, Cell.rat 5]]⟩ :=
  ⟨by decide, process_sale_duplicate_no_rollback _ _ _ (by decide)⟩

/-- Claim C2 counterexample: add_product validates nothing about the supplied
quantity, so adding a product with quantity -1 to an inventory satisfying the
non-negativity invariant yields an inventory violating it; the claim that
add_product preserves the invariant is false. -/
theorem add_product_negative_quantity_breaks_invariant :
    quantitiesNonneg (InventoryState.mk [] none).products ∧
    ¬ quantitiesNonneg (add_product ⟨[], none⟩ "p1" "Widget" 1 (-1)).products :=
  ⟨by decide, by decide⟩

/-- Claim C2 amended: sale item acceptance preserves non-negativity of all
quantities on hand (given the dict invariant that product ids are unique), and
add_product preserves it provided the supplied quantity is non-negative; the
code itself never checks the sign of an added quantity. -/
theorem nonneg_invariant_amended :
    (∀ (st : InventoryState) (pid nm : String) (price : ℚ) (qty : ℤ),
       0 ≤ qty → quantitiesNonneg st.products →
       quantitiesNonneg (add_product st pid nm price qty).products) ∧
    (∀ (products : List Product) (sale : Sale) (events : List SaleEvent),
       (products.map Product.product_id).Nodup → quantitiesNonneg products →
       quantitiesNonneg (collectItems products sale events).1) := by
  constructor
  · intro st pid nm price qty hq hnn
    unfold add_product
    split
    · exact hnn
    · exact dictInsert_nonneg hnn hq
  · intro products sale events hnodup hnn
    exact collectItems_nonneg events products sale hnodup hnn

/-- Witness for the amended C2: a fresh product with positive quantity, then
an accepted sale item. -/
theorem nonneg_invariant_amended_w :
    quantitiesNonneg (add_product ⟨[⟨"a", "A", 2, 3⟩], none⟩ "b" "B" 1 4).products ∧
    quantitiesNonneg (collectItems [⟨"a", "A", 2, 3⟩] ⟨"S", []⟩ [.sell "a" (some 2)]).1 :=
  ⟨nonneg_invariant_amended.1 _ "b" "B" 1 4 (by decide) (by decide),
   nonneg_invariant_amended.2 _ ⟨"S", []⟩ _ (by decide) (by decide)⟩

/-- Claim C3: a sale whose id is already in the ledger is rejected with the
ledger unchanged, and a sale with a fresh id appends exactly one row per line
item, each appended row carrying the sale id as its first field. -/
theorem save_sale_spec (rows : FileData) (sale : Sale) :
    (sale.sale_id ∈ get_existing_sales rows → save_sale rows sale = (rows, false)) ∧
    (sale.sale_id ∉ get_existing_sales rows →
      save_sale rows sale = (rows ++ sale.items.map (saleRow sale.sale_id), true) ∧
      ∀ row ∈ sale.items.map (saleRow sale.sale_id),
        row.head? = some (Cell.str sale.sale_id)) := by
  refine ⟨fun h => ?_, fun h => ⟨?_, ?_⟩⟩
  · simp [save_sale, h]
  · simp [save_sale, h]
  · intro row hrow
    obtain ⟨it, _, hit⟩ := List.mem_map.mp hrow
    rw [← hit]
    rfl

/-- Witness for C3: a duplicate id S1 is rejected and a fresh id S2 appends
its line item row. -/
theorem save_sale_spec_w :
    ("S1" ∈ get_existing_sales [salesHeader, [Cell.str "S1"]]) ∧
    save_sale [salesHeader, [Cell.str "S1"]] ⟨"S1", [⟨"p1", "Widget", 2, 10⟩]⟩
      = ([salesHeader, [Cell.str "S1"]], false) ∧
    ("S2" ∉ get_existing_sales [salesHeader, [Cell.str "S1"]]) ∧
    save_sale [salesHeader, [Cell.str "S1"]] ⟨"S2", [⟨"p1", "Widget", 2, 10⟩]⟩
      = ([salesHeader, [Cell.str "S1"]] ++
          [(⟨"p1", "Widget", 2, 10⟩ : LineItem)].map (saleRow "S2"), true) :=
  ⟨by decide, (save_sale_spec _ _).1 (by decide), by decide,
   ((save_sale_spec _ _).2 (by decide)).1⟩

/-- Claim C4: adding a product whose id is already a key of the inventory
changes nothing: the products mapping and the backing file are returned
exactly as they were. -/
theorem add_product_duplicate_rejected (st : InventoryState) (pid nm : String)
    (price : ℚ) (qty : ℤ) (h : ∃ p ∈ st.products, p.product_id = pid) :
    add_product st pid nm price qty = st := by
  obtain ⟨p, hp, hid⟩ := h
  unfold add_product
  rw [if_pos (List.any_eq_true.mpr ⟨p, hp, by simp [hid]⟩)]

/-- Witness for C4: re-adding id p1 with different name, price and quantity
leaves the state untouched. -/
theorem add_product_duplicate_rejected_w :
    (∃ p ∈ [(⟨"p1", "Widget", 5, 2⟩ : Product)], p.product_id = "p1") ∧
    add_product ⟨[⟨"p1", "Widget", 5, 2⟩], none⟩ "p1" "Gadget" 7 9
      = ⟨[⟨"p1", "Widget", 5, 2⟩], none⟩ :=
  ⟨⟨⟨"p1", "Widget", 5, 2⟩, List.mem_singleton.mpr rfl, rfl⟩,
   add_product_duplicate_rejected _ "p1" "Gadget" 7 9
     ⟨⟨"p1", "Widget", 5, 2⟩, List.mem_singleton.mpr rfl, rfl⟩⟩

/-- Claim C5: an item with requested quantity at most the stock on hand is
accepted: the matching product is decremented by exactly that quantity, every
other record is unchanged, and the appended line item carries the total
price * quantity. -/
theorem sale_item_accepted (products : List Product) (sale : Sale) (pid : String)
    (qty : ℤ) (p : Product) (hdone : ¬ pyLower pid = "done")
    (hfind : products.find? (fun r => r.product_id == pid) = some p)
    (hstock : qty ≤ p.quantity) :
    collectItems products sale [SaleEvent.sell pid (some qty)] =
      (products.map (fun r =>
         if r.product_id == pid then { r with quantity := r.quantity - qty } else r),
       { sale with items :=
           sale.items ++ [⟨p.product_id, p.name, qty, p.price * (qty : ℚ)⟩] }) := by
  rw [collectItems_accept sale [] hdone hfind hstock, collectItems_nil]

/-- Witness for C5: price 9.99 and quantity 3 give the line total 29.97 of the
spec example, and the second product is untouched. -/
theorem sale_item_accepted_w :
    (¬ pyLower "p1" = "done") ∧
    ((3 : ℤ) ≤ (⟨"p1", "Widget", 9.99, 5⟩ : Product).quantity) ∧
    collectItems [⟨"p1", "Widget", 9.99, 5⟩, ⟨"p2", "Gadget", 3, 4⟩] ⟨"S1", []⟩
        [SaleEvent.sell "p1" (some 3)] =
      ([(⟨"p1", "Widget", 9.99, 5⟩ : Product), ⟨"p2", "Gadget", 3, 4⟩].map (fun r =>
         if r.product_id == "p1" then { r with quantity := r.quantity - 3 } else r),
       ⟨"S1", [⟨"p1", "Widget", 3, (9.99 : ℚ) * ((3 : ℤ) : ℚ)⟩]⟩) ∧
    ((9.99 : ℚ) * ((3 : ℤ) : ℚ) = 29.97) :=
  ⟨by decide, by decide,
   sale_item_accepted [⟨"p1", "Widget", 9.99, 5⟩, ⟨"p2", "Gadget", 3, 4⟩] ⟨"S1", []⟩
     "p1" 3 ⟨"p1", "Widget", 9.99, 5⟩ (by decide) rfl (by decide),
   by norm_num⟩

/-- Claim C6: saving any inventory mapping and loading it back yields the same
products, id, name, price and quantity included. -/
theorem inventory_round_trip (products : List Product)
    (h : (products.map Product.product_id).Nodup) :
    load_inventory (some (save_inventory products)) = products := by
  have hload := loadRows_save products [] h (by simp)
  simpa [load_inventory, save_inventory] using hload

/-- Witness for C6 on a two-product inventory. -/
theorem inventory_round_trip_w :
    (([(⟨"p1", "Widget", 9.99, 5⟩ : Product), ⟨"p2", "Gadget", 3, 0⟩].map
        Product.product_id).Nodup) ∧
    load_inventory (some (save_inventory [⟨"p1", "Widget", 9.99, 5⟩, ⟨"p2", "Gadget", 3, 0⟩]))
      = [⟨"p1", "Widget", 9.99, 5⟩, ⟨"p2", "Gadget", 3, 0⟩] :=
  ⟨by decide, inventory_round_trip _ (by decide)⟩

/-- Claim C7: a missing file loads as the empty inventory; a row with fewer
than four fields is skipped silently; the first row with a malformed numeric
field aborts the whole load, yielding exactly the products parsed from the
well-formed rows before it. -/
theorem load_inventory_lenient :
    (load_inventory none = []) ∧
    (∀ (row : Row) (rest : FileData) (acc : List Product),
       rowSkipped row = true → loadRows (row :: rest) acc = loadRows rest acc) ∧
    (∀ (hdr bad : Row) (pre rest : FileData),
       (∀ r ∈ pre, rowSkipped r = true ∨ rowOk r = true) → rowAborts bad = true →
       load_inventory (some (hdr :: (pre ++ bad :: rest)))
         = load_inventory (some (hdr :: pre))) := by
  refine ⟨rfl, ?_, ?_⟩
  · intro row rest acc hskip
    exact loadRows_short rest acc (by simpa [rowSkipped] using hskip)
  · intro hdr bad pre rest hpre habort
    show loadRows (pre ++ bad :: rest) [] = loadRows pre []
    exact loadRows_until_abort bad rest habort pre [] hpre

/-- Witness for C7: a short row is skipped, and a file whose third data row
has a non-numeric price field loads exactly the products of the rows before
it, the trailing well-formed row included in the file but not in the result. -/
theorem load_inventory_lenient_w :
    (load_inventory none = []) ∧
    (rowSkipped [Cell.str "x"] = true) ∧
    (loadRows ([Cell.str "x"] :: []) [] = loadRows [] []) ∧
    (∀ r ∈ [[Cell.str "p1", Cell.str "W", Cell.rat 2, Cell.int 5], [Cell.str "short"]],
       rowSkipped r = true ∨ rowOk r = true) ∧
    (rowAborts [Cell.str "p2", Cell.str "G", Cell.str "abc", Cell.int 1] = true) ∧
    (load_inventory (some (invHeader ::
        ([[Cell.str "p1", Cell.str "W", Cell.rat 2, Cell.int 5], [Cell.str "short"]] ++
          [Cell.str "p2", Cell.str "G", Cell.str "abc", Cell.int 1] ::
          [[Cell.str "p3", Cell.str "H", Cell.rat 1, Cell.int 1]])))
      = load_inventory (some (invHeader ::
          [[Cell.str "p1", Cell.str "W", Cell.rat 2, Cell.int 5], [Cell.str "short"]]))) :=
  ⟨load_inventory_lenient.1, by decide,
   load_inventory_lenient.2.1 _ _ _ (by decide),
   by decide, by decide,
   load_inventory_lenient.2.2 _ _ _ _ (by decide) (by decide)⟩

/-- Claim C8: an item requesting more than the available stock is rejected:
the sale gets no line item and the inventory is unchanged. -/
theorem insufficient_stock_rejected (products : List Product) (sale : Sale)
    (pid : String) (qty : ℤ) (p : Product)
    (hfind : products.find? (fun r => r.product_id == pid) = some p)
    (hover : p.quantity < qty) :
    collectItems products sale [SaleEvent.sell pid (some qty)] = (products, sale) := by
  by_cases hd : pyLower pid = "done"
  · exact collectItems_done products sale _ [] hd
  · rw [collectItems_over sale [] hd hfind hover, collectItems_nil]

/-- Witness for C8: stock 2, requested 3. -/
theorem insufficient_stock_rejected_w :
    ((⟨"p1", "Widget", 5, 2⟩ : Product).quantity < 3) ∧
    collectItems [⟨"p1", "Widget", 5, 2⟩] ⟨"S1", []⟩ [SaleEvent.sell "p1" (some 3)]
      = ([⟨"p1", "Widget", 5, 2⟩], ⟨"S1", []⟩) :=
  ⟨by decide, insufficient_stock_rejected _ _ "p1" 3 _ rfl (by decide)⟩

/-- Claim C9: the stock check accepts every integer quantity at most the stock
on hand, zero and negative included; the product ends at stock minus the
requested quantity, one line item is appended, and a negative quantity makes
the stock strictly increase. -/
theorem any_quantity_up_to_stock_accepted (products : List Product) (sale : Sale)
    (pid : String) (qty : ℤ) (p : Product) (hdone : ¬ pyLower pid = "done")
    (hfind : products.find? (fun r => r.product_id == pid) = some p)
    (hstock : qty ≤ p.quantity) :
    ((collectItems products sale [SaleEvent.sell pid (some qty)]).1.find?
        (fun r => r.product_id == pid) = some { p with quantity := p.quantity - qty }) ∧
    (collectItems products sale [SaleEvent.sell pid (some qty)]).2.items.length
        = sale.items.length + 1 ∧
    (qty < 0 → p.quantity < p.quantity - qty) := by
  rw [collectItems_accept sale [] hdone hfind hstock, collectItems_nil]
  refine ⟨find?_map_decrement pid qty products p hfind, ?_, ?_⟩
  · simp
  · intro hneg; omega

/-- Witness for C9: requested quantity -3 against stock 5 is accepted and the
stock rises to 8. -/
theorem any_quantity_up_to_stock_accepted_w :
    ((-3 : ℤ) ≤ (⟨"p1", "Widget", 5, 5⟩ : Product).quantity) ∧
    (((collectItems [⟨"p1", "Widget", 5, 5⟩] ⟨"S1", []⟩
          [SaleEvent.sell "p1" (some (-3))]).1.find?
        (fun r => r.product_id == "p1") = some ⟨"p1", "Widget", 5, 5 - (-3)⟩) ∧
      (collectItems [⟨"p1", "Widget", 5, 5⟩] ⟨"S1", []⟩
          [SaleEvent.sell "p1" (some (-3))]).2.items.length
        = ([] : List LineItem).length + 1 ∧
      ((-3 : ℤ) < 0 → (5 : ℤ) < 5 - (-3))) :=
  ⟨by decide,
   any_quantity_up_to_stock_accepted [⟨"p1", "Widget", 5, 5⟩] ⟨"S1", []⟩
     "p1" (-3) ⟨"p1", "Widget", 5, 5⟩ (by decide) rfl (by decide)⟩

/-- Claim C10: saving a sale with no line items under a fresh id appends zero
rows and reports success, and the id is still absent from the existing ids, so
a later sale reusing it is not rejected as a duplicate. -/
theorem save_sale_empty_items (rows : FileData) (sale : Sale)
    (hitems : sale.items = []) (hnew : sale.sale_id ∉ get_existing_sales rows) :
    save_sale rows sale = (rows, true) ∧
    sale.sale_id ∉ get_existing_sales (save_sale rows sale).1 ∧
    ∀ sale2 : Sale, sale2.sale_id = sale.sale_id →
      (save_sale (save_sale rows sale).1 sale2).2 = true := by
  have h1 : save_sale rows sale = (rows, true) := by
    simp [save_sale, hnew, hitems]
  refine ⟨h1, ?_, ?_⟩
  · rw [h1]; exact hnew
  · intro sale2 hs
    rw [h1]
    simp [save_sale, hs, hnew]

/-- Witness for C10: an empty sale S9 against a ledger holding only the
header. -/
theorem save_sale_empty_items_w :
    ((⟨"S9", []⟩ : Sale).items = []) ∧ ("S9" ∉ get_existing_sales [salesHeader]) ∧
    (save_sale [salesHeader] ⟨"S9", []⟩ = ([salesHeader], true) ∧
     "S9" ∉ get_existing_sales (save_sale [salesHeader] ⟨"S9", []⟩).1 ∧
     ∀ sale2 : Sale, sale2.sale_id = "S9" →
       (save_sale (save_sale [salesHeader] ⟨"S9", []⟩).1 sale2).2 = true) :=
  ⟨rfl, by decide, save_sale_empty_items [salesHeader] ⟨"S9", []⟩ rfl (by decide)⟩

end Shop
